import Mathlib

/-!
Shallow embedding of the streaming conversation engine of orchestrate.chat.

The definitions below are translated from:
  * src/unnamed/part_002 (lib/openrouter.ts, the newer revision exporting
    WebSearchCitation): getChatCompletionStream's SSE read loop;
  * src/src/components/ChatComponent.tsx: handleStreamingSubmit (guards,
    onChunk accumulation, citation merging, periodic persist, onDone
    finalisation, onError sealing) and handleRetryMessage.

Strings are modelled as Lean String; the byte stream consumed by the
reader is modelled as a list of already-text-decoded chunks (lists of
characters).  JSON.parse is abstracted as a parameter
parse : List Char -> Option ChatCompletionChunk, since the engine only
observes its success or failure on each data payload.
-/

/-- Roles of a chat message, from the ChatMessage interface. -/
inductive Role where
  | system
  | user
  | assistant
deriving DecidableEq, Repr

/-- WebSearchCitation from lib/openrouter.ts: title, url, optional text,
and the 1-based ordinal number. -/
structure WebSearchCitation where
  title : String
  url : String
  text : Option String
  number : Nat
deriving DecidableEq, Repr

/-- UrlCitation from lib/openrouter.ts. -/
structure UrlCitation where
  start_index : Nat
  end_index : Nat
  title : String
  url : String
  content : String
deriving DecidableEq, Repr

/-- Annotation from lib/openrouter.ts; the source checks
annotation.type === 'url_citation' at runtime, so the tag is kept as a
string field. -/
structure Annotation where
  type : String
  url_citation : UrlCitation
deriving DecidableEq, Repr

/-- The delta object of a streamed choice.  The component reads every
field through optional chaining, so each is modelled as an Option. -/
structure Delta where
  content : Option String
  role : Option String
  annotations : Option (List Annotation)
  citations : Option (List WebSearchCitation)
deriving DecidableEq, Repr

/-- One element of chunk.choices. -/
structure Choice where
  delta : Option Delta
  finish_reason : Option String
  index : Nat
deriving DecidableEq, Repr

/-- ChatCompletionChunk from lib/openrouter.ts. -/
structure ChatCompletionChunk where
  id : String
  model : String
  choices : List Choice
deriving DecidableEq, Repr

/-- ChatMessage from lib/openrouter.ts (part_002 revision). -/
structure ChatMessage where
  role : Role
  content : String
  model : Option String
  messageid : Option String
  citations : Option (List WebSearchCitation)
deriving DecidableEq, Repr

/-! ## TransportDecoder: the SSE read loop of getChatCompletionStream -/

/-- Events observed by the callbacks of getChatCompletionStream: a parsed
chunk delivered to onChunk, or the done signal delivered to onDone. -/
inductive StreamEvent where
  | data (chunk : ChatCompletionChunk)
  | done
deriving DecidableEq, Repr

/-- JavaScript String.prototype.trim whitespace test (the characters that
occur in SSE framing). -/
def isJsWhitespace (c : Char) : Bool :=
  c = ' ' || c = '\t' || c = '\r' || c = '\n'

/-- line.trim() on a list of characters. -/
def jsTrim (cs : List Char) : List Char :=
  ((cs.dropWhile isJsWhitespace).reverse.dropWhile isJsWhitespace).reverse

/-- The characters of the SSE data marker 'data: '. -/
def dataMarker : List Char := 'd' :: 'a' :: 't' :: 'a' :: ':' :: ' ' :: []

/-- The characters of the sentinel payload [DONE]. -/
def doneSentinel : List Char := '[' :: 'D' :: 'O' :: 'N' :: 'E' :: ']' :: []

/-- The inner line-scanning loop of getChatCompletionStream
(part_002 lines 193-215).  The first argument accumulates the current
line in reverse; the second is the unread remainder of the buffer.
On a newline the completed line is trimmed; a line starting with
'data: ' carries a payload; the payload [DONE] emits the done signal and
stops scanning, leaving the unread remainder as the new buffer (the
source's break from the inner while loop); any other payload is parsed,
and on success the chunk - with its model field overwritten by the
requested model, mirroring chunk.model = model - is delivered; parse
failures are dropped.  When the characters run out, the partial line
becomes the new buffer. -/
def sseScan (parse : List Char → Option ChatCompletionChunk) (model : String) :
    List Char → List Char → List StreamEvent × List Char
  | cur, [] => ([], cur.reverse)
  | cur, c :: cs =>
    if c = '\n' then
      let line := jsTrim cur.reverse
      if line.take 6 = dataMarker then
        let d := line.drop 6
        if d = doneSentinel then
          ([StreamEvent.done], cs)
        else
          match parse d with
          | some k =>
            let r := sseScan parse model [] cs
            (StreamEvent.data { k with model := model } :: r.1, r.2)
          | none => sseScan parse model [] cs
      else sseScan parse model [] cs
    else sseScan parse model (c :: cur) cs

/-- The outer read loop of getChatCompletionStream (part_002 lines
182-216): each reader.read() that yields bytes appends them to the
buffer and runs the line scanner; when the reader reports done, onDone
fires and the loop ends. -/
def streamRead (parse : List Char → Option ChatCompletionChunk) (model : String) :
    List (List Char) → List Char → List StreamEvent
  | [], _ => [StreamEvent.done]
  | chunk :: rest, buf =>
    let p := sseScan parse model [] (buf ++ chunk)
    p.1 ++ streamRead parse model rest p.2

/-- The full trace of callback invocations for a byte-chunk sequence,
starting from an empty buffer. -/
def getChatCompletionStreamTrace (parse : List Char → Option ChatCompletionChunk)
    (model : String) (chunks : List (List Char)) : List StreamEvent :=
  streamRead parse model chunks []

/-- Checks that no data event is delivered after the first done signal
of a trace. -/
def noDataAfterDone : List StreamEvent → Bool
  | [] => true
  | StreamEvent.done :: rest =>
    rest.all fun e => match e with
      | StreamEvent.data _ => false
      | StreamEvent.done => true
  | StreamEvent.data _ :: rest => noDataAfterDone rest

/-! ## AccumulationEngine and CitationMerger: handleStreamingSubmit's onChunk -/

/-- chunk.choices[0]?.delta?.content || '' (ChatComponent.tsx line 480). -/
def contentDeltaOf (chunk : ChatCompletionChunk) : String :=
  (((chunk.choices.head?).bind Choice.delta).bind Delta.content).getD ""

/-- chunk.choices[0]?.delta?.annotations || [] (line 483). -/
def annotationsOf (chunk : ChatCompletionChunk) : List Annotation :=
  (((chunk.choices.head?).bind Choice.delta).bind Delta.annotations).getD []

/-- chunk.choices[0]?.delta?.citations || [] (line 484). -/
def citationsDeltaOf (chunk : ChatCompletionChunk) : List WebSearchCitation :=
  (((chunk.choices.head?).bind Choice.delta).bind Delta.citations).getD []

/-- Insertion of one annotation-shape citation (ChatComponent.tsx lines
494-509): only url_citation annotations are considered; if no collected
citation already carries the same url, a new entry is appended whose
number is the current set size plus one. -/
def mergeAnnotationItem (cs : List WebSearchCitation) (a : Annotation) :
    List WebSearchCitation :=
  if a.type = "url_citation" then
    if cs.any (fun c => c.url = a.url_citation.url) then cs
    else cs ++ [{ title := a.url_citation.title, url := a.url_citation.url,
                  text := some a.url_citation.content, number := cs.length + 1 }]
  else cs

/-- Insertion of one delta-shape citation (lines 514-519): if the url is
new, the incoming citation object is appended as it stands. -/
def mergeDeltaCitation (cs : List WebSearchCitation) (c : WebSearchCitation) :
    List WebSearchCitation :=
  if cs.any (fun x => x.url = c.url) then cs else cs ++ [c]

/-- annotations.forEach over the collected set. -/
def mergeAnnotations (cs : List WebSearchCitation) (batch : List Annotation) :
    List WebSearchCitation :=
  batch.foldl mergeAnnotationItem cs

/-- citationsDelta.forEach over the collected set. -/
def mergeDeltaCitations (cs : List WebSearchCitation) (batch : List WebSearchCitation) :
    List WebSearchCitation :=
  batch.foldl mergeDeltaCitation cs

/-- The mutable closure state of handleStreamingSubmit's streaming phase:
accumulatedContent and collectedCitations. -/
structure StreamState where
  accumulatedContent : String
  collectedCitations : List WebSearchCitation
deriving DecidableEq, Repr

/-- A durable write issued through updateStreamingMessage: target message
id and full content. -/
structure PersistWrite where
  messageId : String
  content : String
deriving DecidableEq, Repr

/-- The onChunk callback of handleStreamingSubmit (lines 478-546).
Returns the updated closure state, whether the transcript (UI) was
updated, and the periodic checkpoint writes issued.  The periodic write
fires when accumulatedContent.length % 100 === 0 and a message id
exists. -/
def submitOnChunk (messageId : Option String) (chunk : ChatCompletionChunk)
    (s : StreamState) : StreamState × Bool × List PersistWrite :=
  let contentDelta := contentDeltaOf chunk
  let annotations := annotationsOf chunk
  let citationsDelta := citationsDeltaOf chunk
  if contentDelta ≠ "" || annotations ≠ [] || citationsDelta ≠ [] then
    let acc := if contentDelta ≠ "" then s.accumulatedContent ++ contentDelta
               else s.accumulatedContent
    let cs1 := mergeAnnotations s.collectedCitations annotations
    let cs2 := mergeDeltaCitations cs1 citationsDelta
    let writes := match messageId with
      | some id => if acc.length % 100 = 0 then [⟨id, acc⟩] else []
      | none => []
    (⟨acc, cs2⟩, true, writes)
  else
    (s, false, [])

/-- Running submitOnChunk over a chunk sequence in arrival order,
collecting every periodic write in issuance order. -/
def submitRunChunks (messageId : Option String) :
    List ChatCompletionChunk → StreamState → StreamState × List PersistWrite
  | [], s => (s, [])
  | chunk :: rest, s =>
    let r := submitOnChunk messageId chunk s
    let r2 := submitRunChunks messageId rest r.1
    (r2.1, r.2.2 ++ r2.2)

/-! ## Checkpointer: finalisation (onDone) and the durable store -/

/-- Citations sorted ascending by their number field
([...collectedCitations].sort((a, b) => a.number - b.number), line 555). -/
def sortCitations (cs : List WebSearchCitation) : List WebSearchCitation :=
  cs.mergeSort (fun a b => a.number ≤ b.number)

/-- The rendered citations block appended for a web-search request
(lines 556-559). -/
def citationsBlock (cs : List WebSearchCitation) : String :=
  "\n\n**Citations:**\n" ++
    String.join ((sortCitations cs).enum.map
      (fun p => "[" ++ toString (p.1 + 1) ++ "] " ++ p.2.title ++ ": " ++ p.2.url ++ "\n"))

/-- The closure state visible to the onDone callback. -/
structure FinalizeInput where
  messageId : Option String
  accumulatedContent : String
  collectedCitations : List WebSearchCitation
  isWebSearch : Bool
deriving DecidableEq, Repr

/-- finalContent as computed at lines 549-560: the accumulated content,
with the citations block appended when citations were collected during a
web-search request. -/
def finalContent (inp : FinalizeInput) : String :=
  if inp.collectedCitations ≠ [] && inp.isWebSearch then
    inp.accumulatedContent ++ citationsBlock inp.collectedCitations
  else inp.accumulatedContent

/-- The durable writes issued by the onDone callback (lines 562-597):
only when a message id exists and finalContent is non-empty; the
web-search branch writes finalContent, the plain branch writes
accumulatedContent. -/
def finalizeWrites (inp : FinalizeInput) : List PersistWrite :=
  match inp.messageId with
  | some id =>
    if finalContent inp ≠ "" then
      if inp.isWebSearch then [⟨id, finalContent inp⟩]
      else [⟨id, inp.accumulatedContent⟩]
    else []
  | none => []

/-- Durable store semantics: each write sets the full content of its
message id (updateStreamingMessage is a full overwrite, never a delta). -/
def applyWrites (ws : List PersistWrite) (store : String → Option String) :
    String → Option String :=
  ws.foldl (fun st w => fun k => if k = w.messageId then some w.content else st k) store

/-! ## Error sealing: the onError callback of handleStreamingSubmit -/

/-- error.name === 'AbortError' || error.message === 'Request aborted'
(ChatComponent.tsx line 609). -/
def wasAborted (errName errMessage : String) : Bool :=
  errName = "AbortError" || errMessage = "Request aborted"

/-- The sealed content computed by the onError callback (lines 612-645):
accumulated content plus a stopped or error notice, or a wholesale
replacement when nothing had accumulated. -/
def sealedContent (aborted : Bool) (accumulatedContent : String) : String :=
  if accumulatedContent ≠ "" then
    accumulatedContent ++
      (if aborted then "\n\n_Generation stopped._"
       else "\n\n_Error: Message streaming was interrupted._")
  else
    if aborted then "Generation stopped."
    else "Sorry, there was an error processing your request."

/-- Result of the onError callback: the sealed message content, the
checkpoint writes issued, and the isLoading flag afterwards (false =
the session is back to idle). -/
structure ErrorOutcome where
  sealed : String
  writes : List PersistWrite
  isLoading : Bool
deriving DecidableEq, Repr

/-- The onError callback of handleStreamingSubmit (lines 605-651): seals
the streaming message, checkpoints the sealed content when a message id
exists, and clears the loading state. -/
def submitOnError (messageId : Option String) (errName errMessage : String)
    (accumulatedContent : String) : ErrorOutcome :=
  let ab := wasAborted errName errMessage
  { sealed := sealedContent ab accumulatedContent
    writes := match messageId with
      | some id => [⟨id, sealedContent ab accumulatedContent⟩]
      | none => []
    isLoading := false }

/-! ## ConversationSession: the guard and setup phase of handleStreamingSubmit -/

/-- Durable operations issued against the persistence collaborator.
Chat ids are abstracted away; message-level writes carry the message id. -/
inductive PersistOp where
  | createChat
  | saveMessage (content : String) (source : String)
  | updateChatTitle (title : String)
  | saveStreamingMessage (content : String) (model : String)
  | updateMessage (id : String) (content : String)
deriving DecidableEq, Repr

/-- submittedText.trim() on Lean strings. -/
def jsTrimStr (s : String) : String :=
  String.mk (jsTrim s.data)

/-- Everything handleStreamingSubmit has done by the time the streaming
request is issued: the parsed command, the durable operations, the
transcript (user message and placeholder assistant message appended), and
the conversation history handed to getChatCompletionStream. -/
structure SubmitSetup where
  isWebSearch : Bool
  messageText : String
  displayText : String
  ops : List PersistOp
  transcript : List ChatMessage
  history : List ChatMessage
deriving DecidableEq, Repr

/-- The guard and setup phase of handleStreamingSubmit
(ChatComponent.tsx lines 361-475).  Returns none exactly when the
function returns before causing any effect: the trimmed text is empty,
a stream is already in flight (isLoading), or the /websearch command has
no query after it.  Otherwise returns the effects performed before the
streaming call: chat creation when no chat is active, the user-message
save, the title update for a fresh chat, the empty streaming-message
save, the transcript after the two appends, and the outgoing history. -/
def submitSetup (input : String) (isLoading : Bool) (activeChatId : Option String)
    (messages : List ChatMessage) (selectedModel : String) : Option SubmitSetup :=
  let t := jsTrim input.data
  if t = [] || isLoading then none
  else
    let isWebSearch := t.take 10 = "/websearch".data
    let mt := if isWebSearch then jsTrim (t.drop 10) else t
    if isWebSearch && mt = [] then none
    else
      let messageText := String.mk mt
      let displayText := if isWebSearch then "/websearch " ++ messageText else messageText
      let userMessage : ChatMessage := ⟨Role.user, displayText, none, none, none⟩
      let createOps : List PersistOp :=
        if activeChatId.isNone then [PersistOp.createChat] else []
      let titleOps : List PersistOp :=
        if activeChatId.isNone || messages.length = 0 then
          [PersistOp.updateChatTitle
            (if displayText.length > 25 then String.mk (displayText.data.take 25) ++ "..."
             else displayText)]
        else []
      let initialAssistantMessage : ChatMessage :=
        ⟨Role.assistant, if isWebSearch then "Searching the web..." else "",
          some selectedModel, none, none⟩
      some
        { isWebSearch := isWebSearch
          messageText := messageText
          displayText := displayText
          ops := createOps ++ [PersistOp.saveMessage displayText "user"] ++ titleOps ++
            [PersistOp.saveStreamingMessage "" selectedModel]
          transcript := messages ++ [userMessage, initialAssistantMessage]
          history := messages ++ [⟨Role.user, messageText, none, none, none⟩] }

/-! ## handleRetryMessage -/

/-- The onChunk callback of handleRetryMessage (lines 734-763): appends
the content delta, rewrites the assistant message at index + 1 in place
(content, model, and the reused message id), and issues a periodic
checkpoint when the accumulated length is a multiple of 100 and a
message id exists. -/
def retryOnChunk (index : Nat) (messageId : Option String)
    (chunk : ChatCompletionChunk) (acc : String) (msgs : List ChatMessage) :
    String × List ChatMessage × List PersistOp :=
  let contentDelta := contentDeltaOf chunk
  if contentDelta ≠ "" then
    let acc2 := acc ++ contentDelta
    let msgs2 := match msgs[index + 1]? with
      | some m =>
        if m.role = Role.assistant then
          msgs.set (index + 1)
            { m with content := acc2, model := some chunk.model, messageid := messageId }
        else msgs
      | none => msgs
    let ops := match messageId with
      | some id => if acc2.length % 100 = 0 then [PersistOp.updateMessage id acc2] else []
      | none => []
    (acc2, msgs2, ops)
  else (acc, msgs, [])

/-- Running retryOnChunk over the chunk sequence in arrival order. -/
def retryRunChunks (index : Nat) (messageId : Option String) :
    List ChatCompletionChunk → String → List ChatMessage →
    String × List ChatMessage × List PersistOp
  | [], acc, msgs => (acc, msgs, [])
  | chunk :: rest, acc, msgs =>
    let r := retryOnChunk index messageId chunk acc msgs
    let r2 := retryRunChunks index messageId rest r.1 r.2.1
    (r2.1, r2.2.1, r.2.2 ++ r2.2.2)

/-- The onDone callback of handleRetryMessage (lines 764-772): a final
update keyed by the reused message id, only when content accumulated. -/
def retryOnDone (messageId : Option String) (acc : String) : List PersistOp :=
  match messageId with
  | some id => if acc ≠ "" then [PersistOp.updateMessage id acc] else []
  | none => []

/-- Result of a retry that passed its guards: the history sent to the
completion provider, the transcript at stream end, and the durable
operations issued. -/
structure RetryOutcome where
  history : List ChatMessage
  transcript : List ChatMessage
  ops : List PersistOp
deriving DecidableEq, Repr

/-- handleRetryMessage (lines 674-849) for a stream that ends normally:
guards (not loading; index + 1 in range; the message at index is a user
message; an active chat exists), reuse of the existing assistant message
id, history truncation to messages [0..index], the Regenerating
placeholder, the streaming loop, and the final update. -/
def handleRetryMessage (isLoading : Bool) (activeChatId : Option String)
    (messages : List ChatMessage) (index : Nat)
    (chunks : List ChatCompletionChunk) : Option RetryOutcome :=
  if isLoading then none
  else if index + 1 ≥ messages.length then none
  else match messages[index]? with
    | none => none
    | some um =>
      if um.role ≠ Role.user then none
      else if activeChatId.isNone then none
      else
        let messageId := match messages[index + 1]? with
          | some am => am.messageid
          | none => none
        let history := messages.take (index + 1)
        let msgs0 := match messages[index + 1]? with
          | some m =>
            if m.role = Role.assistant then
              messages.set (index + 1) { m with content := "Regenerating..." }
            else messages
          | none => messages
        let r := retryRunChunks index messageId chunks "" msgs0
        some ⟨history, r.2.1, r.2.2 ++ retryOnDone messageId r.1⟩

/-! ## The transcript (UI) update of handleStreamingSubmit's onChunk -/

/-- The setMessages updater at lines 523-538: the last message, when it
is an assistant message, is replaced by a copy carrying the accumulated
content, the chunk's model, the collected citations, and the message
id. -/
def submitUiUpdate (messageId : Option String) (chunk : ChatCompletionChunk)
    (acc : String) (cs : List WebSearchCitation) (msgs : List ChatMessage) :
    List ChatMessage :=
  match msgs.getLast? with
  | some m =>
    if m.role = Role.assistant then
      msgs.dropLast ++
        [{ m with
            content := acc
            model := some chunk.model
            citations := if cs ≠ [] then some cs else none
            messageid := messageId }]
    else msgs
  | none => msgs

/-! ## Views of the submit guard result used by the no-op claims -/

/-- Durable operations performed by a submit attempt. -/
def submitOps (r : Option SubmitSetup) : List PersistOp :=
  match r with
  | some s => s.ops
  | none => []

/-- The transcript after a submit attempt. -/
def submitTranscript (messages : List ChatMessage) (r : Option SubmitSetup) :
    List ChatMessage :=
  match r with
  | some s => s.transcript
  | none => messages

/-- The completion request (history and web-search flag) issued by a
submit attempt, if any. -/
def submitRequest (r : Option SubmitSetup) : Option (List ChatMessage × Bool) :=
  match r with
  | some s => some (s.history, s.isWebSearch)
  | none => none

/-! ## Helper facts about the decoder trace -/

/-- True on events delivered to onChunk. -/
def isData : StreamEvent → Bool
  | StreamEvent.data _ => true
  | StreamEvent.done => false

/-- True when a data event carries the given model identifier (done
events are ignored). -/
def eventModelIs (model : String) : StreamEvent → Bool
  | StreamEvent.data c => c.model = model
  | StreamEvent.done => true

theorem sseScan_shape (parse : List Char → Option ChatCompletionChunk) (model : String) :
    ∀ cs cur : List Char,
      ((sseScan parse model cur cs).1.all isData = true) ∨
      ∃ l, (sseScan parse model cur cs).1 = l ++ [StreamEvent.done] ∧ l.all isData = true := by
  intro cs
  induction cs with
  | nil => intro cur; left; simp [sseScan]
  | cons c cs ih =>
    intro cur
    simp only [sseScan]
    split
    · split
      · split
        · right
          exact ⟨[], rfl, rfl⟩
        · split
          · rename_i k hk
            rcases ih [] with h | ⟨l, hl, ha⟩
            · left
              simpa [isData] using h
            · right
              refine ⟨StreamEvent.data { k with model := model } :: l, ?_, ?_⟩
              · simp [hl]
              · simpa [isData] using ha
          · exact ih []
      · exact ih []
    · exact ih (c :: cur)

theorem noDataAfterDone_all_done (l : List StreamEvent) (h : l.all isData = true) :
    noDataAfterDone (l ++ [StreamEvent.done]) = true := by
  induction l with
  | nil => simp [noDataAfterDone]
  | cons e rest ih =>
    cases e with
    | data c =>
      simp only [List.cons_append, noDataAfterDone]
      exact ih (by simpa [isData] using h)
    | done => simp [isData] at h

theorem noDataAfterDone_two_done (l : List StreamEvent) (h : l.all isData = true) :
    noDataAfterDone (l ++ [StreamEvent.done, StreamEvent.done]) = true := by
  induction l with
  | nil => simp [noDataAfterDone, List.all]
  | cons e rest ih =>
    cases e with
    | data c =>
      simp only [List.cons_append, noDataAfterDone]
      exact ih (by simpa [isData] using h)
    | done => simp [isData] at h

/-- A concrete chunk as the server declares it: note the server-declared
model identifier. -/
def chunkX : ChatCompletionChunk := ⟨"gen-1", "server/esoteric-model", []⟩

/-- A concrete stand-in for JSON.parse that recognises exactly the
payload X. -/
def parseX : List Char → Option ChatCompletionChunk :=
  fun d => if d = ['X'] then some chunkX else none

/-- C1, counterexample.  The byte-chunk sequence
"data: [DONE]\n", "data: X\n" contains the sentinel, yet the decoder
still delivers a parsed event to onChunk after the sentinel line was
processed: the break at the sentinel only leaves the inner line loop,
and the outer read loop keeps parsing later chunks. -/
theorem c1_cex_event_after_sentinel :
    noDataAfterDone (getChatCompletionStreamTrace parseX "client/model"
      ["data: [DONE]\n".data, "data: X\n".data]) = false ∧
    getChatCompletionStreamTrace parseX "client/model"
        ["data: [DONE]\n".data, "data: X\n".data] =
      [StreamEvent.done, StreamEvent.data ⟨"gen-1", "client/model", []⟩,
       StreamEvent.done] := by
  constructor
  · decide
  · decide

/-- C1, amended.  When the chunk carrying the sentinel is the last chunk
the reader yields (no later chunks arrive), the decoder delivers no
parsed event to onChunk after the done signal - the lines remaining in
the buffer when the sentinel is processed are never parsed - and the
trace completes with onDone.  (With later chunks the read loop resumes
parsing, as the counterexample shows.)  The statement covers an
arbitrary buffered remainder and an arbitrary final chunk. -/
theorem c1_sentinel_final_chunk (parse : List Char → Option ChatCompletionChunk)
    (model : String) (buf b : List Char) :
    noDataAfterDone (streamRead parse model [b] buf) = true ∧
    (streamRead parse model [b] buf).getLast? = some StreamEvent.done := by
  have hdef : streamRead parse model [b] buf =
      (sseScan parse model [] (buf ++ b)).1 ++ [StreamEvent.done] := by
    simp [streamRead]
  constructor
  · rw [hdef]
    rcases sseScan_shape parse model (buf ++ b) [] with h | ⟨l, hl, ha⟩
    · exact noDataAfterDone_all_done _ h
    · rw [hl, List.append_assoc]
      exact noDataAfterDone_two_done l ha
  · rw [hdef]
    simp

theorem sseScan_model (parse : List Char → Option ChatCompletionChunk) (model : String) :
    ∀ cs cur : List Char, (sseScan parse model cur cs).1.all (eventModelIs model) = true := by
  intro cs
  induction cs with
  | nil => intro cur; simp [sseScan]
  | cons c cs ih =>
    intro cur
    simp only [sseScan]
    split
    · split
      · split
        · simp [eventModelIs]
        · split
          · rename_i k hk
            simpa [eventModelIs] using ih []
          · exact ih []
      · exact ih []
    · exact ih (c :: cur)

theorem streamRead_model (parse : List Char → Option ChatCompletionChunk) (model : String) :
    ∀ (chunks : List (List Char)) (buf : List Char),
      (streamRead parse model chunks buf).all (eventModelIs model) = true := by
  intro chunks
  induction chunks with
  | nil => intro buf; simp [streamRead, eventModelIs]
  | cons b rest ih =>
    intro buf
    simp only [streamRead, List.all_append, Bool.and_eq_true]
    exact ⟨sseScan_model parse model (buf ++ b) [], ih _⟩

/-- C3, counterexample.  The server declares model server/esoteric-model
in its event (chunkX), the client requested client/model; the event
delivered to onChunk carries client/model, and the transcript update
writes that client-side identifier into the target message - the
server-declared identifier is discarded, not authoritative. -/
theorem c3_cex_server_model_discarded :
    chunkX.model = "server/esoteric-model" ∧
    getChatCompletionStreamTrace parseX "client/model" ["data: X\n".data] =
      [StreamEvent.data ⟨"gen-1", "client/model", []⟩, StreamEvent.done] ∧
    (submitUiUpdate (some "m1") ⟨"gen-1", "client/model", []⟩ "hi" []
        [⟨Role.assistant, "", some "client/model", some "m1", none⟩]).map
      ChatMessage.model = [some "client/model"] ∧
    ("client/model" : String) ≠ "server/esoteric-model" := by
  decide

/-- C3, amended.  getChatCompletionStream overwrites every delivered
chunk's model field with the model the CLIENT requested
(chunk.model = model), so every event of every trace carries the
client-selected identifier, and the transcript update then copies that
identifier into the streaming assistant message: the client's selection
is authoritative, any server-declared identifier is discarded. -/
theorem c3_client_model_authoritative (parse : List Char → Option ChatCompletionChunk)
    (model : String) (chunks : List (List Char)) (buf : List Char) :
    (streamRead parse model chunks buf).all (eventModelIs model) = true ∧
    ∀ (mid : Option String) (chunk : ChatCompletionChunk) (acc : String)
      (cs : List WebSearchCitation) (msgs : List ChatMessage) (m : ChatMessage),
      msgs.getLast? = some m → m.role = Role.assistant →
      (submitUiUpdate mid chunk acc cs msgs).getLast? = some
        { m with
            content := acc
            model := some chunk.model
            citations := if cs ≠ [] then some cs else none
            messageid := mid } := by
  refine ⟨streamRead_model parse model chunks buf, ?_⟩
  intro mid chunk acc cs msgs m hlast hrole
  unfold submitUiUpdate
  rw [hlast]
  simp only [hrole, if_pos]
  simp

/-- C3, witness: the amended theorem applied at a concrete trace and a
concrete transcript whose last message is a streaming assistant
message. -/
theorem c3_witness :
    (streamRead parseX "client/model" ["data: X\n".data] []).all
      (eventModelIs "client/model") = true ∧
    (submitUiUpdate (some "m1") ⟨"gen-1", "client/model", []⟩ "hi" []
        [⟨Role.assistant, "", some "old/model", some "m1", none⟩]).getLast? =
      some ⟨Role.assistant, "hi", some "client/model", some "m1", none⟩ := by
  have h := c3_client_model_authoritative parseX "client/model" ["data: X\n".data] []
  refine ⟨h.1, ?_⟩
  have h2 := h.2 (some "m1") ⟨"gen-1", "client/model", []⟩ "hi" []
    [⟨Role.assistant, "", some "old/model", some "m1", none⟩]
    ⟨Role.assistant, "", some "old/model", some "m1", none⟩ rfl rfl
  simpa using h2

/-- C2, counterexample.  A session that reaches done with empty
accumulated content and a live message id persists nothing at
finalisation - the code guards the final write with
messageId && finalContent - contradicting persists exactly once
regardless of the length of the accumulated content. -/
theorem c2_cex_empty_final_content_not_persisted :
    finalizeWrites ⟨some "m1", "", [], false⟩ = [] ∧
    (finalizeWrites ⟨some "m1", "", [], false⟩).length ≠ 1 := by
  decide

/-- C2, amended.  When the final content is non-empty and a durable
message id exists, finalisation issues exactly one write, the persisted
value under that id is the final content, and running the same
finalisation twice leaves the store exactly as running it once does
(each write is a full-content overwrite, so the repeated write is
idempotent in effect).  With empty final content no write is issued. -/
theorem c2_finalize_once_and_idempotent (inp : FinalizeInput) (id : String)
    (h1 : inp.messageId = some id) (h2 : finalContent inp ≠ "") :
    (finalizeWrites inp).length = 1 ∧
    (∀ st : String → Option String,
      applyWrites (finalizeWrites inp) st id = some (finalContent inp)) ∧
    (∀ st : String → Option String,
      applyWrites (finalizeWrites inp ++ finalizeWrites inp) st =
        applyWrites (finalizeWrites inp) st) := by
  have hw : finalizeWrites inp =
      [⟨id, if inp.isWebSearch then finalContent inp else inp.accumulatedContent⟩] := by
    simp only [finalizeWrites, h1]
    rw [if_pos h2]
    by_cases hws : inp.isWebSearch <;> simp [hws]
  have hco : (if inp.isWebSearch then finalContent inp else inp.accumulatedContent) =
      finalContent inp := by
    by_cases hws : inp.isWebSearch
    · simp [hws]
    · simp [hws, finalContent]
  refine ⟨by rw [hw]; rfl, ?_, ?_⟩
  · intro st
    rw [hw]
    simp [applyWrites, hco]
  · intro st
    rw [hw]
    funext k
    by_cases hk : k = id <;> simp [applyWrites, hk]

/-- C2, witness: the amended theorem applied to a finished session with
content Hello under message id m1. -/
theorem c2_witness :
    (finalizeWrites ⟨some "m1", "Hello", [], false⟩).length = 1 ∧
    (∀ st : String → Option String,
      applyWrites (finalizeWrites ⟨some "m1", "Hello", [], false⟩) st "m1" =
        some (finalContent ⟨some "m1", "Hello", [], false⟩)) ∧
    (∀ st : String → Option String,
      applyWrites (finalizeWrites ⟨some "m1", "Hello", [], false⟩ ++
          finalizeWrites ⟨some "m1", "Hello", [], false⟩) st =
        applyWrites (finalizeWrites ⟨some "m1", "Hello", [], false⟩) st) :=
  c2_finalize_once_and_idempotent ⟨some "m1", "Hello", [], false⟩ "m1" rfl (by decide)

/-- C6, confirmed.  cancel() surfaces as an error with message Request
aborted; with accumulated content Par the sealed content is exactly
Par, two newlines, then the stopped notice; with empty accumulated
content it is exactly Generation stopped.; in both cases the sealed
content is checkpointed under the message id, the loading flag clears
(the session returns to idle), and the sealed text is the stopped
notice, distinct from the error-outcome text. -/
theorem c6_abort_sealing :
    submitOnError (some "m1") "Error" "Request aborted" "Par" =
      ⟨"Par\n\n_Generation stopped._", [⟨"m1", "Par\n\n_Generation stopped._"⟩], false⟩ ∧
    submitOnError (some "m1") "Error" "Request aborted" "" =
      ⟨"Generation stopped.", [⟨"m1", "Generation stopped."⟩], false⟩ ∧
    sealedContent true "Par" ≠ sealedContent false "Par" ∧
    sealedContent true "" ≠ sealedContent false "" := by
  decide

/-- C8, confirmed.  With a stream in flight (isLoading), submit is
rejected synchronously before any effect: no chat creation, no save, no
transcript change, no completion request; the submission is dropped, not
queued.  This early return is the BusyError rejection of the spec. -/
theorem c8_busy_submit_rejected (input : String) (activeChatId : Option String)
    (messages : List ChatMessage) (selectedModel : String) :
    submitSetup input true activeChatId messages selectedModel = none ∧
    submitOps (submitSetup input true activeChatId messages selectedModel) = [] ∧
    submitTranscript messages (submitSetup input true activeChatId messages selectedModel) =
      messages ∧
    submitRequest (submitSetup input true activeChatId messages selectedModel) = none := by
  have h : submitSetup input true activeChatId messages selectedModel = none := by
    simp [submitSetup]
  exact ⟨h, by rw [h]; rfl, by rw [h]; rfl, by rw [h]; rfl⟩

/-- C10, confirmed.  A submit whose text trims to the empty string, or
whose text is the /websearch command with no query after it, returns
before any effect: no durable operation, no transcript change, no
completion request. -/
theorem c10_blank_submit_noop (input : String) (isLoading : Bool)
    (activeChatId : Option String) (messages : List ChatMessage) (selectedModel : String)
    (h : jsTrim input.data = [] ∨
      ((jsTrim input.data).take 10 = "/websearch".data ∧
        jsTrim ((jsTrim input.data).drop 10) = [])) :
    submitSetup input isLoading activeChatId messages selectedModel = none ∧
    submitOps (submitSetup input isLoading activeChatId messages selectedModel) = [] ∧
    submitTranscript messages
      (submitSetup input isLoading activeChatId messages selectedModel) = messages ∧
    submitRequest (submitSetup input isLoading activeChatId messages selectedModel) =
      none := by
  have hnone : submitSetup input isLoading activeChatId messages selectedModel = none := by
    rcases h with h1 | ⟨h2, h3⟩
    · simp [submitSetup, h1]
    · by_cases hL : isLoading
      · simp [submitSetup, hL]
      · by_cases ht : jsTrim input.data = []
        · simp [submitSetup, ht]
        · simp [submitSetup, ht, hL, h2, h3]
  exact ⟨hnone, by rw [hnone]; rfl, by rw [hnone]; rfl, by rw [hnone]; rfl⟩

/-- C10, witness: the bare /websearch command (with trailing spaces) is
a no-op. -/
theorem c10_witness :
    (jsTrim ("/websearch   " : String).data = [] ∨
      ((jsTrim ("/websearch   " : String).data).take 10 = "/websearch".data ∧
        jsTrim ((jsTrim ("/websearch   " : String).data).drop 10) = [])) ∧
    submitSetup "/websearch   " false (some "c1") [] "model-a" = none := by
  refine ⟨Or.inr ⟨by decide, by decide⟩, ?_⟩
  exact (c10_blank_submit_noop "/websearch   " false (some "c1") [] "model-a"
    (Or.inr ⟨by decide, by decide⟩)).1

/-- C9, confirmed.  The accumulation step is total over partial chunks:
an event with an empty choices array, a first choice without a delta, or
a delta with none of content, annotations and citations leaves the
closure state untouched, performs no transcript update, and issues no
checkpoint write; and whenever the content field is absent or empty the
accumulated content is unchanged even if citations arrive. -/
theorem c9_partial_chunk_noop (mid : Option String) (chunk : ChatCompletionChunk)
    (s : StreamState) :
    (chunk.choices = [] → submitOnChunk mid chunk s = (s, false, [])) ∧
    (∀ ch, chunk.choices.head? = some ch → ch.delta = none →
      submitOnChunk mid chunk s = (s, false, [])) ∧
    (contentDeltaOf chunk = "" → annotationsOf chunk = [] → citationsDeltaOf chunk = [] →
      submitOnChunk mid chunk s = (s, false, [])) ∧
    (contentDeltaOf chunk = "" →
      (submitOnChunk mid chunk s).1.accumulatedContent = s.accumulatedContent) := by
  have base : contentDeltaOf chunk = "" → annotationsOf chunk = [] →
      citationsDeltaOf chunk = [] → submitOnChunk mid chunk s = (s, false, []) := by
    intro h1 h2 h3
    simp [submitOnChunk, h1, h2, h3]
  refine ⟨?_, ?_, base, ?_⟩
  · intro h
    exact base (by simp [contentDeltaOf, h]) (by simp [annotationsOf, h])
      (by simp [citationsDeltaOf, h])
  · intro ch hch hd
    exact base (by simp [contentDeltaOf, hch, hd]) (by simp [annotationsOf, hch, hd])
      (by simp [citationsDeltaOf, hch, hd])
  · intro h1
    unfold submitOnChunk
    simp only [h1]
    split
    · simp
    · rfl

/-- C9, witness: a chunk with an empty choices array leaves state,
transcript and store untouched. -/
theorem c9_witness :
    (⟨"gen-3", "m", []⟩ : ChatCompletionChunk).choices = [] ∧
    submitOnChunk none ⟨"gen-3", "m", []⟩ ⟨"abc", []⟩ = (⟨"abc", []⟩, false, []) :=
  ⟨rfl, (c9_partial_chunk_noop none ⟨"gen-3", "m", []⟩ ⟨"abc", []⟩).1 rfl⟩

/-- A 150-character content delta. -/
def delta150 : String :=
  "xxxxxxxxxxxxxxxxxxxxxxxxxxxxxxxxxxxxxxxxxxxxxxxxxxxxxxxxxxxxxxxxxxxxxxxxxxxxxxxxxxxxxxxxxxxxxxxxxxxxxxxxxxxxxxxxxxxxxxxxxxxxxxxxxxxxxxxxxxxxxxxxxxxxxx"

/-- A single event carrying the 150-character delta. -/
def chunk150 : ChatCompletionChunk :=
  ⟨"gen-4", "m", [⟨some ⟨some delta150, none, none, none⟩, none, 0⟩]⟩

set_option maxRecDepth 4000 in
/-- C4, counterexample.  A single event that accumulates 150 new content
units on a fresh session (persisted length 0) issues no periodic
checkpoint, because the source's check is
accumulatedContent.length % 100 === 0, a modulo test on the total
length, not a threshold on content accumulated since the last persist:
150 % 100 = 50. -/
theorem c4_cex_large_delta_no_checkpoint :
    (submitOnChunk (some "m1") chunk150 ⟨"", []⟩).2.2 = [] ∧
    (submitOnChunk (some "m1") chunk150 ⟨"", []⟩).1.accumulatedContent.length = 150 ∧
    100 ≤ (150 : Nat) := by
  decide


theorem submitOnChunk_writes_modulo (mid : Option String) (chunk : ChatCompletionChunk)
    (s : StreamState) :
    ∀ w ∈ (submitOnChunk mid chunk s).2.2, w.content.length % 100 = 0 := by
  intro w hw
  cases mid with
  | none =>
    dsimp only [submitOnChunk] at hw
    split at hw <;> simp at hw
  | some id =>
    dsimp only [submitOnChunk] at hw
    split at hw
    · split at hw <;>
      · simp at hw
        rcases hw with ⟨h1, h2⟩
        rw [h2]
        simpa using h1
    · simp at hw

theorem submitRunChunks_writes_modulo (mid : Option String)
    (chunks : List ChatCompletionChunk) :
    ∀ s : StreamState, ∀ w ∈ (submitRunChunks mid chunks s).2,
      w.content.length % 100 = 0 := by
  induction chunks with
  | nil => intro s w hw; simp [submitRunChunks] at hw
  | cons chunk rest ih =>
    intro s w hw
    simp only [submitRunChunks, List.mem_append] at hw
    rcases hw with hw | hw
    · exact submitOnChunk_writes_modulo mid chunk s w hw
    · exact ih _ w hw

theorem submitOnChunk_some_eq (id : String) (chunk : ChatCompletionChunk)
    (s : StreamState) (d : String) (hd : contentDeltaOf chunk = d) (hne : d ≠ "") :
    submitOnChunk (some id) chunk s =
      (⟨s.accumulatedContent ++ d,
         mergeDeltaCitations (mergeAnnotations s.collectedCitations (annotationsOf chunk))
           (citationsDeltaOf chunk)⟩, true,
       if (s.accumulatedContent ++ d).length % 100 = 0
       then [⟨id, s.accumulatedContent ++ d⟩] else []) := by
  unfold submitOnChunk
  rw [hd]
  simp [hne]

/-- C4, amended.  The periodic checkpoint of the submit stream is a
modulo test on the total accumulated length: a content-carrying event
issues a write exactly when the new total length is a multiple of 100
(given a message id), the write then carries the full accumulated
content, and across any run every periodic write's content length is a
multiple of 100.  Accumulating 100 or more new units since the last
persist does not by itself trigger a checkpoint; the counterexample
shows a 150-unit accumulation issuing no write. -/
theorem c4_periodic_persist_is_modulo (id : String) (chunk : ChatCompletionChunk)
    (s : StreamState) (d : String) (hd : contentDeltaOf chunk = d) (hne : d ≠ "") :
    ((submitOnChunk (some id) chunk s).2.2 ≠ [] ↔
      (s.accumulatedContent ++ d).length % 100 = 0) ∧
    ((s.accumulatedContent ++ d).length % 100 = 0 →
      (submitOnChunk (some id) chunk s).2.2 = [⟨id, s.accumulatedContent ++ d⟩]) ∧
    (submitOnChunk (some id) chunk s).1.accumulatedContent = s.accumulatedContent ++ d ∧
    (∀ (mid : Option String) (chunks : List ChatCompletionChunk) (s0 : StreamState),
      ∀ w ∈ (submitRunChunks mid chunks s0).2, w.content.length % 100 = 0) := by
  have hstep := submitOnChunk_some_eq id chunk s d hd hne
  refine ⟨?_, ?_, ?_, fun mid chunks s0 => submitRunChunks_writes_modulo mid chunks s0⟩
  · rw [hstep]
    by_cases hmod : (s.accumulatedContent ++ d).length % 100 = 0
    · rw [if_pos hmod]
      simpa [String.length_append] using hmod
    · rw [if_neg hmod]
      simpa [String.length_append] using hmod
  · intro hmod
    rw [hstep]
    exact if_pos hmod
  · rw [hstep]

/-- A 100-character content delta. -/
def delta100 : String :=
  "yyyyyyyyyyyyyyyyyyyyyyyyyyyyyyyyyyyyyyyyyyyyyyyyyyyyyyyyyyyyyyyyyyyyyyyyyyyyyyyyyyyyyyyyyyyyyyyyyyyy"

/-- A single event carrying the 100-character delta. -/
def chunk100 : ChatCompletionChunk :=
  ⟨"gen-5", "m", [⟨some ⟨some delta100, none, none, none⟩, none, 0⟩]⟩

set_option maxRecDepth 4000 in
/-- C4, witness: the amended theorem applied to a fresh session
receiving exactly 100 units, where the modulo test fires. -/
theorem c4_witness :
    ((submitOnChunk (some "m1") chunk100 ⟨"", []⟩).2.2 ≠ [] ↔
      (("" : String) ++ delta100).length % 100 = 0) ∧
    ((("" : String) ++ delta100).length % 100 = 0 →
      (submitOnChunk (some "m1") chunk100 ⟨"", []⟩).2.2 =
        [⟨"m1", ("" : String) ++ delta100⟩]) ∧
    (submitOnChunk (some "m1") chunk100 ⟨"", []⟩).1.accumulatedContent =
      ("" : String) ++ delta100 ∧
    (∀ (mid : Option String) (chunks : List ChatCompletionChunk) (s0 : StreamState),
      ∀ w ∈ (submitRunChunks mid chunks s0).2, w.content.length % 100 = 0) :=
  c4_periodic_persist_is_modulo "m1" chunk100 ⟨"", []⟩ delta100 rfl (by decide)

/-- Duplicate count for a batch of annotation-shape citations: an element
counts as a duplicate when its url was already seen (in the starting set
or contributed by an earlier batch element). -/
def annDupCount (cs : List WebSearchCitation) : List Annotation → Nat
  | [] => 0
  | a :: as =>
    (if cs.any (fun c => c.url = a.url_citation.url) then 1 else 0) +
      annDupCount (mergeAnnotationItem cs a) as

/-- Duplicate count for a batch of delta-shape citations. -/
def deltaDupCount (cs : List WebSearchCitation) : List WebSearchCitation → Nat
  | [] => 0
  | c :: rest =>
    (if cs.any (fun x => x.url = c.url) then 1 else 0) +
      deltaDupCount (mergeDeltaCitation cs c) rest

theorem mergeAnnotation_cases (cs : List WebSearchCitation) (a : Annotation) :
    mergeAnnotationItem cs a = cs ∨
    (a.type = "url_citation" ∧ cs.any (fun c => c.url = a.url_citation.url) = false ∧
      mergeAnnotationItem cs a = cs ++ [⟨a.url_citation.title, a.url_citation.url,
        some a.url_citation.content, cs.length + 1⟩]) := by
  unfold mergeAnnotationItem
  by_cases ht : a.type = "url_citation"
  · by_cases hs : cs.any (fun c => c.url = a.url_citation.url)
    · left; simp [ht, hs]
    · right
      refine ⟨ht, by simpa using hs, ?_⟩
      simp [ht, hs]
  · left; simp [ht]

theorem mergeDeltaCitation_cases (cs : List WebSearchCitation) (c : WebSearchCitation) :
    mergeDeltaCitation cs c = cs ∨
    (cs.any (fun x => x.url = c.url) = false ∧ mergeDeltaCitation cs c = cs ++ [c]) := by
  unfold mergeDeltaCitation
  by_cases hs : cs.any (fun x => x.url = c.url)
  · left; simp [hs]
  · right; exact ⟨by simpa using hs, by simp [hs]⟩

theorem mergeAnnotations_append_structure (batch : List Annotation) :
    ∀ cs : List WebSearchCitation, ∃ t, mergeAnnotations cs batch = cs ++ t := by
  induction batch with
  | nil => intro cs; exact ⟨[], by simp [mergeAnnotations]⟩
  | cons a as ih =>
    intro cs
    have hma : mergeAnnotations cs (a :: as) = mergeAnnotations (mergeAnnotationItem cs a) as := rfl
    rcases mergeAnnotation_cases cs a with h | ⟨_, _, h⟩
    · obtain ⟨t, ht⟩ := ih cs
      exact ⟨t, by rw [hma, h, ht]⟩
    · obtain ⟨t, ht⟩ := ih (cs ++ [⟨a.url_citation.title, a.url_citation.url,
        some a.url_citation.content, cs.length + 1⟩])
      exact ⟨_ :: t, by rw [hma, h, ht, List.append_assoc]; rfl⟩

theorem mergeDeltaCitations_append_structure (batch : List WebSearchCitation) :
    ∀ cs : List WebSearchCitation, ∃ t, mergeDeltaCitations cs batch = cs ++ t := by
  induction batch with
  | nil => intro cs; exact ⟨[], by simp [mergeDeltaCitations]⟩
  | cons c rest ih =>
    intro cs
    have hmd : mergeDeltaCitations cs (c :: rest) =
      mergeDeltaCitations (mergeDeltaCitation cs c) rest := rfl
    rcases mergeDeltaCitation_cases cs c with h | ⟨_, h⟩
    · obtain ⟨t, ht⟩ := ih cs
      exact ⟨t, by rw [hmd, h, ht]⟩
    · obtain ⟨t, ht⟩ := ih (cs ++ [c])
      exact ⟨c :: t, by rw [hmd, h, ht, List.append_assoc]; rfl⟩

theorem mergeAnnotations_count (batch : List Annotation) :
    ∀ cs : List WebSearchCitation, (∀ a ∈ batch, a.type = "url_citation") →
      (mergeAnnotations cs batch).length + annDupCount cs batch =
        cs.length + batch.length := by
  induction batch with
  | nil => intro cs _; simp [mergeAnnotations, annDupCount]
  | cons a as ih =>
    intro cs hty
    have hty2 : ∀ x ∈ as, x.type = "url_citation" := fun x hx => hty x (List.mem_cons_of_mem a hx)
    have hta : a.type = "url_citation" := hty a (List.mem_cons_self a as)
    have hstep : mergeAnnotations cs (a :: as) = mergeAnnotations (mergeAnnotationItem cs a) as := rfl
    by_cases hs : cs.any (fun c => c.url = a.url_citation.url)
    · have hcs : mergeAnnotationItem cs a = cs := by simp [mergeAnnotationItem, hta, hs]
      have h1 : mergeAnnotations cs (a :: as) = mergeAnnotations cs as := by rw [hstep, hcs]
      have h2 : annDupCount cs (a :: as) = 1 + annDupCount cs as := by
        simp [annDupCount, hs, hcs]
      have h3 := ih cs hty2
      rw [h1, h2]
      simp only [List.length_cons]
      omega
    · have hcs : mergeAnnotationItem cs a = cs ++ [⟨a.url_citation.title, a.url_citation.url,
        some a.url_citation.content, cs.length + 1⟩] := by
        simp [mergeAnnotationItem, hta, hs]
      have h1 : mergeAnnotations cs (a :: as) =
          mergeAnnotations (cs ++ [⟨a.url_citation.title, a.url_citation.url,
            some a.url_citation.content, cs.length + 1⟩]) as := by rw [hstep, hcs]
      have h2 : annDupCount cs (a :: as) =
          annDupCount (cs ++ [⟨a.url_citation.title, a.url_citation.url,
            some a.url_citation.content, cs.length + 1⟩]) as := by
        simp [annDupCount, hs, hcs]
      have h3 := ih (cs ++ [⟨a.url_citation.title, a.url_citation.url,
        some a.url_citation.content, cs.length + 1⟩]) hty2
      rw [h1, h2]
      simp only [List.length_cons, List.length_append, List.length_nil] at h3 ⊢
      omega

theorem mergeDeltaCitations_count (batch : List WebSearchCitation) :
    ∀ cs : List WebSearchCitation,
      (mergeDeltaCitations cs batch).length + deltaDupCount cs batch =
        cs.length + batch.length := by
  induction batch with
  | nil => intro cs; simp [mergeDeltaCitations, deltaDupCount]
  | cons c rest ih =>
    intro cs
    have hstep : mergeDeltaCitations cs (c :: rest) =
      mergeDeltaCitations (mergeDeltaCitation cs c) rest := rfl
    by_cases hs : cs.any (fun x => x.url = c.url)
    · have hcs : mergeDeltaCitation cs c = cs := by simp [mergeDeltaCitation, hs]
      have h1 : mergeDeltaCitations cs (c :: rest) = mergeDeltaCitations cs rest := by
        rw [hstep, hcs]
      have h2 : deltaDupCount cs (c :: rest) = 1 + deltaDupCount cs rest := by
        simp [deltaDupCount, hs, hcs]
      have h3 := ih cs
      rw [h1, h2]
      simp only [List.length_cons]
      omega
    · have hcs : mergeDeltaCitation cs c = cs ++ [c] := by simp [mergeDeltaCitation, hs]
      have h1 : mergeDeltaCitations cs (c :: rest) = mergeDeltaCitations (cs ++ [c]) rest := by
        rw [hstep, hcs]
      have h2 : deltaDupCount cs (c :: rest) = deltaDupCount (cs ++ [c]) rest := by
        simp [deltaDupCount, hs, hcs]
      have h3 := ih (cs ++ [c])
      rw [h1, h2]
      simp only [List.length_cons, List.length_append, List.length_nil] at h3 ⊢
      omega

theorem mergeAnnotations_numbering (batch : List Annotation) :
    ∀ cs : List WebSearchCitation, ∀ j : Nat, cs.length ≤ j →
      ∀ e, (mergeAnnotations cs batch)[j]? = some e → e.number = j + 1 := by
  induction batch with
  | nil =>
    intro cs j hj e he
    rw [show mergeAnnotations cs [] = cs from rfl] at he
    have hlt : j < cs.length := by
      have := List.getElem?_eq_some.mp he
      exact this.1
    omega
  | cons a as ih =>
    intro cs j hj e he
    have hstep : mergeAnnotations cs (a :: as) = mergeAnnotations (mergeAnnotationItem cs a) as := rfl
    rcases mergeAnnotation_cases cs a with h | ⟨_, _, h⟩
    · exact ih cs j hj e (by rwa [hstep, h] at he)
    · rw [hstep, h] at he
      by_cases hje : j = cs.length
      · obtain ⟨t, ht⟩ := mergeAnnotations_append_structure as
          (cs ++ [⟨a.url_citation.title, a.url_citation.url,
            some a.url_citation.content, cs.length + 1⟩])
        rw [ht] at he
        subst hje
        have hlt : cs.length < (cs ++ [(⟨a.url_citation.title, a.url_citation.url,
            some a.url_citation.content, cs.length + 1⟩ : WebSearchCitation)]).length := by
          simp
        rw [List.getElem?_append_left hlt] at he
        have hsome : (cs ++ [(⟨a.url_citation.title, a.url_citation.url,
            some a.url_citation.content, cs.length + 1⟩ : WebSearchCitation)])[cs.length]? =
            some ⟨a.url_citation.title, a.url_citation.url,
              some a.url_citation.content, cs.length + 1⟩ := by
          simp
        rw [hsome] at he
        cases he
        rfl
      · refine ih (cs ++ [⟨a.url_citation.title, a.url_citation.url,
          some a.url_citation.content, cs.length + 1⟩]) j ?_ e he
        simp only [List.length_append, List.length_cons, List.length_nil]
        omega

theorem mergeAnnotation_nodup (cs : List WebSearchCitation) (a : Annotation)
    (h : (cs.map WebSearchCitation.url).Nodup) :
    ((mergeAnnotationItem cs a).map WebSearchCitation.url).Nodup := by
  rcases mergeAnnotation_cases cs a with hc | ⟨_, hs, hc⟩
  · rwa [hc]
  · rw [hc]
    simp only [List.map_append, List.map_cons, List.map_nil]
    refine List.Nodup.append h (by simp) ?_
    intro x hx hx2
    simp only [List.mem_singleton] at hx2
    subst hx2
    simp only [List.any_eq_false, decide_eq_true_eq] at hs
    obtain ⟨c, hc2, hc3⟩ := List.mem_map.mp hx
    exact hs c hc2 hc3

theorem mergeAnnotations_nodup (batch : List Annotation) :
    ∀ cs : List WebSearchCitation, (cs.map WebSearchCitation.url).Nodup →
      ((mergeAnnotations cs batch).map WebSearchCitation.url).Nodup := by
  induction batch with
  | nil => intro cs h; exact h
  | cons a as ih =>
    intro cs h
    exact ih (mergeAnnotationItem cs a) (mergeAnnotation_nodup cs a h)

theorem mergeDeltaCitation_nodup (cs : List WebSearchCitation) (c : WebSearchCitation)
    (h : (cs.map WebSearchCitation.url).Nodup) :
    ((mergeDeltaCitation cs c).map WebSearchCitation.url).Nodup := by
  rcases mergeDeltaCitation_cases cs c with hc | ⟨hs, hc⟩
  · rwa [hc]
  · rw [hc]
    simp only [List.map_append, List.map_cons, List.map_nil]
    refine List.Nodup.append h (by simp) ?_
    intro x hx hx2
    simp only [List.mem_singleton] at hx2
    subst hx2
    simp only [List.any_eq_false, decide_eq_true_eq] at hs
    obtain ⟨d, hd2, hd3⟩ := List.mem_map.mp hx
    exact hs d hd2 hd3

theorem mergeDeltaCitations_nodup (batch : List WebSearchCitation) :
    ∀ cs : List WebSearchCitation, (cs.map WebSearchCitation.url).Nodup →
      ((mergeDeltaCitations cs batch).map WebSearchCitation.url).Nodup := by
  induction batch with
  | nil => intro cs h; exact h
  | cons c rest ih =>
    intro cs h
    exact ih (mergeDeltaCitation cs c) (mergeDeltaCitation_nodup cs c h)

theorem mergeDeltaCitations_mem (batch : List WebSearchCitation) :
    ∀ cs : List WebSearchCitation, ∀ e ∈ mergeDeltaCitations cs batch,
      e ∈ cs ∨ e ∈ batch := by
  induction batch with
  | nil => intro cs e he; exact Or.inl he
  | cons c rest ih =>
    intro cs e he
    have hstep : mergeDeltaCitations cs (c :: rest) =
      mergeDeltaCitations (mergeDeltaCitation cs c) rest := rfl
    rw [hstep] at he
    rcases ih (mergeDeltaCitation cs c) e he with hmem | hmem
    · rcases mergeDeltaCitation_cases cs c with hc | ⟨_, hc⟩
      · rw [hc] at hmem
        exact Or.inl hmem
      · rw [hc] at hmem
        rcases List.mem_append.mp hmem with hmem | hmem
        · exact Or.inl hmem
        · simp only [List.mem_singleton] at hmem
          subst hmem
          exact Or.inr (List.mem_cons_self _ _)
    · exact Or.inr (List.mem_cons_of_mem _ hmem)

/-- C5, counterexample.  A delta-shape citation arriving with ordinal 5
is inserted into an empty collected set unchanged: the source pushes the
incoming object as it stands, so the stored ordinal is 5, not the
merged-set size plus one (which would be 1). -/
theorem c5_cex_delta_shape_keeps_incoming_number :
    mergeDeltaCitations [] [⟨"T5", "https://five", none, 5⟩] =
      [⟨"T5", "https://five", none, 5⟩] ∧
    ((5 : Nat) ≠ 0 + 1) := by
  decide

/-- C5, amended.  Merging preserves the n-k count (duplicates by url are
dropped, each fresh url adds one entry), is append-only (earlier entries
keep their first-seen title, text and ordinal and are never renumbered),
and keeps url-distinctness; entries inserted from the ANNOTATION shape
receive ordinal = merged-set size + 1 at insertion (equivalently, final
position + 1); entries inserted from the DELTA shape keep whatever
ordinal the incoming citation object carries (see the counterexample),
and every merged entry comes verbatim from the prior set or the batch. -/
theorem c5_citation_merge (start : List WebSearchCitation) (annBatch : List Annotation)
    (deltaBatch : List WebSearchCitation)
    (hty : ∀ a ∈ annBatch, a.type = "url_citation") :
    ((mergeAnnotations start annBatch).length + annDupCount start annBatch =
      start.length + annBatch.length) ∧
    ((mergeDeltaCitations start deltaBatch).length + deltaDupCount start deltaBatch =
      start.length + deltaBatch.length) ∧
    (∃ t, mergeAnnotations start annBatch = start ++ t) ∧
    (∃ t, mergeDeltaCitations start deltaBatch = start ++ t) ∧
    (∀ j : Nat, start.length ≤ j → ∀ e, (mergeAnnotations start annBatch)[j]? = some e →
      e.number = j + 1) ∧
    (∀ e ∈ mergeDeltaCitations start deltaBatch, e ∈ start ∨ e ∈ deltaBatch) ∧
    ((start.map WebSearchCitation.url).Nodup →
      ((mergeAnnotations start annBatch).map WebSearchCitation.url).Nodup ∧
      ((mergeDeltaCitations start deltaBatch).map WebSearchCitation.url).Nodup) :=
  ⟨mergeAnnotations_count annBatch start hty,
   mergeDeltaCitations_count deltaBatch start,
   mergeAnnotations_append_structure annBatch start,
   mergeDeltaCitations_append_structure deltaBatch start,
   fun j hj e he => mergeAnnotations_numbering annBatch start j hj e he,
   fun e he => mergeDeltaCitations_mem deltaBatch start e he,
   fun hnd => ⟨mergeAnnotations_nodup annBatch start hnd,
     mergeDeltaCitations_nodup deltaBatch start hnd⟩⟩

/-- A concrete url_citation annotation. -/
def annA : Annotation := ⟨"url_citation", ⟨0, 4, "Site A", "https://a", "excerpt A"⟩⟩

/-- C5, witness: the merge theorem applied to an empty starting set, one
annotation-shape batch and one delta-shape batch. -/
theorem c5_witness :
    ((mergeAnnotations [] [annA]).length + annDupCount [] [annA] = 0 + 1) ∧
    ((mergeDeltaCitations [] [⟨"T5", "https://five", none, 5⟩]).length +
      deltaDupCount [] [⟨"T5", "https://five", none, 5⟩] = 0 + 1) ∧
    (∃ t, mergeAnnotations [] [annA] = [] ++ t) ∧
    (∃ t, mergeDeltaCitations [] [⟨"T5", "https://five", none, 5⟩] = [] ++ t) ∧
    (∀ j : Nat, ([] : List WebSearchCitation).length ≤ j → ∀ e,
      (mergeAnnotations [] [annA])[j]? = some e → e.number = j + 1) ∧
    (∀ e ∈ mergeDeltaCitations [] [⟨"T5", "https://five", none, 5⟩],
      e ∈ ([] : List WebSearchCitation) ∨ e ∈ [⟨"T5", "https://five", none, 5⟩]) ∧
    ((([] : List WebSearchCitation).map WebSearchCitation.url).Nodup →
      ((mergeAnnotations [] [annA]).map WebSearchCitation.url).Nodup ∧
      ((mergeDeltaCitations [] [⟨"T5", "https://five", none, 5⟩]).map
        WebSearchCitation.url).Nodup) := by
  have h := c5_citation_merge [] [annA] [⟨"T5", "https://five", none, 5⟩]
    (by intro a ha; rw [List.mem_singleton] at ha; subst ha; rfl)
  simpa using h

theorem retryOnChunk_inv (index : Nat) (mid : Option String)
    (chunk : ChatCompletionChunk) (acc : String) (msgs : List ChatMessage) :
    (retryOnChunk index mid chunk acc msgs).2.1.length = msgs.length ∧
    (∀ j, j ≠ index + 1 →
      (retryOnChunk index mid chunk acc msgs).2.1[j]? = msgs[j]?) ∧
    (∀ op ∈ (retryOnChunk index mid chunk acc msgs).2.2,
      ∃ i c, op = PersistOp.updateMessage i c ∧ mid = some i) := by
  by_cases hc : contentDeltaOf chunk = ""
  · unfold retryOnChunk
    simp [hc]
  · have hops : (retryOnChunk index mid chunk acc msgs).2.2 =
        match mid with
        | some id =>
          if (acc ++ contentDeltaOf chunk).length % 100 = 0
          then [PersistOp.updateMessage id (acc ++ contentDeltaOf chunk)] else []
        | none => [] := by
      unfold retryOnChunk
      simp [hc]
    have hmsgs : (retryOnChunk index mid chunk acc msgs).2.1 =
        match msgs[index + 1]? with
        | some m =>
          if m.role = Role.assistant then
            msgs.set (index + 1)
              { m with
                  content := acc ++ contentDeltaOf chunk
                  model := some chunk.model
                  messageid := mid }
          else msgs
        | none => msgs := by
      unfold retryOnChunk
      simp [hc]
    refine ⟨?_, ?_, ?_⟩
    · rw [hmsgs]
      split
      · split
        · exact List.length_set msgs _ _
        · rfl
      · rfl
    · intro j hj
      rw [hmsgs]
      split
      · split
        · exact List.getElem?_set_ne (fun h => hj h.symm)
        · rfl
      · rfl
    · intro op hop
      rw [hops] at hop
      cases mid with
      | none => simp at hop
      | some i =>
        simp only at hop
        split at hop
        · simp only [List.mem_singleton] at hop
          exact ⟨i, _, hop, rfl⟩
        · simp at hop

theorem retryRunChunks_inv (index : Nat) (mid : Option String)
    (chunks : List ChatCompletionChunk) :
    ∀ (acc : String) (msgs : List ChatMessage),
      (retryRunChunks index mid chunks acc msgs).2.1.length = msgs.length ∧
      (∀ j, j ≠ index + 1 →
        (retryRunChunks index mid chunks acc msgs).2.1[j]? = msgs[j]?) ∧
      (∀ op ∈ (retryRunChunks index mid chunks acc msgs).2.2,
        ∃ i c, op = PersistOp.updateMessage i c ∧ mid = some i) := by
  induction chunks with
  | nil =>
    intro acc msgs
    refine ⟨rfl, fun j _ => rfl, fun op hop => ?_⟩
    simp [retryRunChunks] at hop
  | cons chunk rest ih =>
    intro acc msgs
    have hstep := retryOnChunk_inv index mid chunk acc msgs
    have hrec := ih (retryOnChunk index mid chunk acc msgs).1
      (retryOnChunk index mid chunk acc msgs).2.1
    have hdef : retryRunChunks index mid (chunk :: rest) acc msgs =
        ((retryRunChunks index mid rest (retryOnChunk index mid chunk acc msgs).1
            (retryOnChunk index mid chunk acc msgs).2.1).1,
         (retryRunChunks index mid rest (retryOnChunk index mid chunk acc msgs).1
            (retryOnChunk index mid chunk acc msgs).2.1).2.1,
         (retryOnChunk index mid chunk acc msgs).2.2 ++
           (retryRunChunks index mid rest (retryOnChunk index mid chunk acc msgs).1
              (retryOnChunk index mid chunk acc msgs).2.1).2.2) := rfl
    rw [hdef]
    refine ⟨?_, ?_, ?_⟩
    · exact hrec.1.trans hstep.1
    · intro j hj
      exact (hrec.2.1 j hj).trans (hstep.2.1 j hj)
    · intro op hop
      rcases List.mem_append.mp hop with h | h
      · exact hstep.2.2 op h
      · exact hrec.2.2 op h

theorem retryOnDone_ops (mid : Option String) (acc : String) :
    ∀ op ∈ retryOnDone mid acc, ∃ i c, op = PersistOp.updateMessage i c ∧ mid = some i := by
  intro op hop
  cases mid with
  | none => simp [retryOnDone] at hop
  | some i =>
    simp only [retryOnDone] at hop
    split at hop
    · simp only [List.mem_singleton] at hop
      exact ⟨i, _, hop, rfl⟩
    · simp at hop

/-- C7, confirmed.  A retry at index i that passes the guards (not
loading, an active chat, message i is a user message, message i + 1
exists) sends exactly messages [0..i] as history, keeps the transcript
length (no message is appended), leaves every message other than i + 1
untouched, and issues only updateMessage operations keyed by the
assistant message's pre-existing durable id - no save or create
operation, so no new durable identifier. -/
theorem c7_retry_truncates_and_overwrites (messages : List ChatMessage) (index : Nat)
    (cid : String) (chunks : List ChatCompletionChunk) (um : ChatMessage)
    (hum : messages[index]? = some um) (hrole : um.role = Role.user)
    (hlen : index + 1 < messages.length) :
    ∃ out : RetryOutcome,
      handleRetryMessage false (some cid) messages index chunks = some out ∧
      out.history = messages.take (index + 1) ∧
      out.transcript.length = messages.length ∧
      (∀ j, j ≠ index + 1 → out.transcript[j]? = messages[j]?) ∧
      (∀ op ∈ out.ops, ∃ i c, op = PersistOp.updateMessage i c ∧
        ∃ am, messages[index + 1]? = some am ∧ am.messageid = some i) := by
  obtain ⟨am, ham⟩ : ∃ am, messages[index + 1]? = some am :=
    ⟨messages[index + 1], List.getElem?_eq_getElem hlen⟩
  have hnot : ¬ index + 1 ≥ messages.length := by omega
  have hred : handleRetryMessage false (some cid) messages index chunks =
      some ⟨messages.take (index + 1),
        (retryRunChunks index am.messageid chunks ""
          (if am.role = Role.assistant then
            messages.set (index + 1) { am with content := "Regenerating..." }
          else messages)).2.1,
        (retryRunChunks index am.messageid chunks ""
          (if am.role = Role.assistant then
            messages.set (index + 1) { am with content := "Regenerating..." }
          else messages)).2.2 ++
          retryOnDone am.messageid
            (retryRunChunks index am.messageid chunks ""
              (if am.role = Role.assistant then
                messages.set (index + 1) { am with content := "Regenerating..." }
              else messages)).1⟩ := by
    simp [handleRetryMessage, hum, ham, hrole, hnot]
  set m0 := (if am.role = Role.assistant then
      messages.set (index + 1) { am with content := "Regenerating..." }
    else messages) with hm0
  have hm0len : m0.length = messages.length := by
    rw [hm0]
    split
    · exact List.length_set messages _ _
    · rfl
  have hm0get : ∀ j, j ≠ index + 1 → m0[j]? = messages[j]? := by
    intro j hj
    rw [hm0]
    split
    · exact List.getElem?_set_ne (fun h => hj h.symm)
    · rfl
  have hinv := retryRunChunks_inv index am.messageid chunks "" m0
  refine ⟨_, hred, rfl, ?_, ?_, ?_⟩
  · exact hinv.1.trans hm0len
  · intro j hj
    exact (hinv.2.1 j hj).trans (hm0get j hj)
  · intro op hop
    rcases List.mem_append.mp hop with h | h
    · obtain ⟨i, c, heq, hmid⟩ := hinv.2.2 op h
      exact ⟨i, c, heq, am, ham, hmid⟩
    · obtain ⟨i, c, heq, hmid⟩ := retryOnDone_ops am.messageid _ op h
      exact ⟨i, c, heq, am, ham, hmid⟩

/-- C7, witness: a two-message transcript, retry at index 0. -/
theorem c7_witness :
    ∃ out : RetryOutcome,
      handleRetryMessage false (some "c1")
        [⟨Role.user, "Hi", none, some "u1", none⟩,
         ⟨Role.assistant, "Old", some "m0", some "a1", none⟩] 0 [] = some out ∧
      out.history = ([⟨Role.user, "Hi", none, some "u1", none⟩,
         ⟨Role.assistant, "Old", some "m0", some "a1", none⟩] :
           List ChatMessage).take (0 + 1) ∧
      out.transcript.length = ([⟨Role.user, "Hi", none, some "u1", none⟩,
         ⟨Role.assistant, "Old", some "m0", some "a1", none⟩] : List ChatMessage).length ∧
      (∀ j, j ≠ 0 + 1 → out.transcript[j]? =
        ([⟨Role.user, "Hi", none, some "u1", none⟩,
          ⟨Role.assistant, "Old", some "m0", some "a1", none⟩] : List ChatMessage)[j]?) ∧
      (∀ op ∈ out.ops, ∃ i c, op = PersistOp.updateMessage i c ∧
        ∃ am, ([⟨Role.user, "Hi", none, some "u1", none⟩,
          ⟨Role.assistant, "Old", some "m0", some "a1", none⟩] :
            List ChatMessage)[0 + 1]? = some am ∧ am.messageid = some i) :=
  c7_retry_truncates_and_overwrites
    [⟨Role.user, "Hi", none, some "u1", none⟩,
     ⟨Role.assistant, "Old", some "m0", some "a1", none⟩] 0 "c1" []
    ⟨Role.user, "Hi", none, some "u1", none⟩ rfl rfl (by decide)
